import Mathlib

/-!
Shallow embedding of the analytics/filter engine of the `analytics` repository:
`src/lib/types.ts`, `src/lib/analytics.ts` and the filter store of
`src/scripts/verify-transactions.ts`.

Modelling conventions:
* The TypeScript string-literal union types of `types.ts` become inductive
  enumerations.
* `amount` (a JS number used only via `+` and `/`) is modelled as `ℚ`;
  counts are `ℕ`.
* An ISO-8601 `timestamp` string is modelled by its epoch value (`Int`):
  the source only ever uses timestamps through `new Date(...)` comparisons,
  which compare epoch milliseconds.
* JS `Array.prototype.filter` / `reduce` become `List.filter` / `List.foldl`.
* A JS object used as a grouping dictionary (`Record<string, Transaction[]>`)
  together with `Object.entries` is modelled by the list of keys in first
  occurrence order, each paired with the sublist of matching elements
  (`groupsBy` below) — exactly the enumeration order JS guarantees for
  non-numeric string keys.
* `Array.prototype.sort(cmp)` is modelled by `List.insertionSort` with the
  ordering relation induced by the comparator; the order of tied elements is
  not relied upon anywhere.
-/

namespace Analytics

/-- `Currency` of `src/lib/types.ts`. -/
inductive Currency
  | MXN
  | COP
  | BRL
deriving DecidableEq, Repr

/-- `Country` of `src/lib/types.ts`. -/
inductive Country
  | Mexico
  | Colombia
  | Brazil
deriving DecidableEq, Repr

/-- `PaymentMethod` of `src/lib/types.ts`. -/
inductive PaymentMethod
  | credit_card
  | debit_card
  | pse
  | pix
  | boleto
deriving DecidableEq, Repr

/-- `Processor` of `src/lib/types.ts`. -/
inductive Processor
  | PagosRapid
  | AcquireLocal
  | BrasilPay
deriving DecidableEq, Repr

/-- `TransactionStatus` of `src/lib/types.ts`. -/
inductive TransactionStatus
  | approved
  | declined
deriving DecidableEq, Repr

/-- `DeclineCode` of `src/lib/types.ts`. -/
inductive DeclineCode
  | insufficient_funds
  | card_expired
  | suspected_fraud
  | do_not_honor
  | issuer_unavailable
  | invalid_card_number
  | transaction_not_permitted
  | processing_error
  | timeout
  | lost_stolen_card
deriving DecidableEq, Repr

/-- `DeclineType` of `src/lib/types.ts`. -/
inductive DeclineType
  | soft
  | hard
deriving DecidableEq, Repr

/-- `Transaction` of `src/lib/types.ts`; `timestamp` is the epoch value of the
ISO-8601 string. -/
structure Transaction where
  id : String
  amount : ℚ
  currency : Currency
  country : Country
  payment_method : PaymentMethod
  processor : Processor
  status : TransactionStatus
  decline_code : Option DeclineCode
  timestamp : Int
deriving DecidableEq, Repr

/-- The `softDeclines` table of `classifyDecline` (`src/lib/analytics.ts`). -/
def softDeclines : List DeclineCode :=
  [.insufficient_funds, .issuer_unavailable, .processing_error, .timeout]

/-- The `hardDeclines` table of `classifyDecline` (`src/lib/analytics.ts`). -/
def hardDeclines : List DeclineCode :=
  [.card_expired, .suspected_fraud, .do_not_honor, .invalid_card_number,
   .transaction_not_permitted, .lost_stolen_card]

/-- `classifyDecline` of `src/lib/analytics.ts`: membership in the soft table,
then the hard table, then the default `'hard'`. -/
def classifyDecline (code : DeclineCode) : DeclineType :=
  if code ∈ softDeclines then .soft
  else if code ∈ hardDeclines then .hard
  else .hard

/-- `DateRange` of `src/lib/types.ts`; the source's `end` field is named
`stop` here because `end` is reserved in Lean. -/
structure DateRange where
  start : Option Int
  stop : Option Int
deriving DecidableEq, Repr

/-- `TransactionFilters` of `src/lib/types.ts` (all fields present, as the
store holds them). -/
structure TransactionFilters where
  dateRange : DateRange
  countries : List Country
  paymentMethods : List PaymentMethod
  processors : List Processor
  declineCodes : List DeclineCode
  declineTypes : List DeclineType
deriving DecidableEq, Repr

/-- The anonymous type `Partial<TransactionFilters>` taken by
`filterTransactions`: every field may be absent (`undefined`). -/
structure FilterCriteria where
  dateRange : Option DateRange
  countries : Option (List Country)
  paymentMethods : Option (List PaymentMethod)
  processors : Option (List Processor)
  declineCodes : Option (List DeclineCode)
  declineTypes : Option (List DeclineType)
deriving DecidableEq, Repr

/-- View a full `TransactionFilters` as the `Partial` argument type (every
field present). -/
def toCriteria (f : TransactionFilters) : FilterCriteria :=
  ⟨some f.dateRange, some f.countries, some f.paymentMethods,
   some f.processors, some f.declineCodes, some f.declineTypes⟩

/-- The date-range clause of the `filterTransactions` predicate
(`src/lib/analytics.ts` lines 81–85): reject when `txDate < start` or
`txDate > end`, skip absent pieces. -/
def dateCheck (filters : FilterCriteria) (t : Transaction) : Bool :=
  match filters.dateRange with
  | none => true
  | some r =>
    (match r.start with
     | none => true
     | some s => !(decide (t.timestamp < s))) &&
    (match r.stop with
     | none => true
     | some e => !(decide (e < t.timestamp)))

/-- The country clause (lines 88–90): skip when absent or empty, otherwise
membership. -/
def countryCheck (filters : FilterCriteria) (t : Transaction) : Bool :=
  match filters.countries with
  | none => true
  | some cs => cs.isEmpty || decide (t.country ∈ cs)

/-- The payment-method clause (lines 93–95). -/
def paymentMethodCheck (filters : FilterCriteria) (t : Transaction) : Bool :=
  match filters.paymentMethods with
  | none => true
  | some ms => ms.isEmpty || decide (t.payment_method ∈ ms)

/-- The processor clause (lines 98–100). -/
def processorCheck (filters : FilterCriteria) (t : Transaction) : Bool :=
  match filters.processors with
  | none => true
  | some ps => ps.isEmpty || decide (t.processor ∈ ps)

/-- The decline-code clause (lines 103–110): with a non-empty criterion, a
transaction passes only when it is declined with a non-null code in the set;
anything else (in particular an approved transaction) is rejected. -/
def declineCodeCheck (filters : FilterCriteria) (t : Transaction) : Bool :=
  match filters.declineCodes with
  | none => true
  | some codes =>
    codes.isEmpty ||
    match t.status, t.decline_code with
    | .declined, some c => decide (c ∈ codes)
    | _, _ => false

/-- The decline-type clause (lines 113–120): as `declineCodeCheck` but on
`classifyDecline` of the code. -/
def declineTypeCheck (filters : FilterCriteria) (t : Transaction) : Bool :=
  match filters.declineTypes with
  | none => true
  | some types =>
    types.isEmpty ||
    match t.status, t.decline_code with
    | .declined, some c => decide (classifyDecline c ∈ types)
    | _, _ => false

/-- The whole `filterTransactions` predicate: the source's early-return
chain is the conjunction of the six clauses in order. -/
def passesFilters (filters : FilterCriteria) (t : Transaction) : Bool :=
  dateCheck filters t && countryCheck filters t && paymentMethodCheck filters t &&
  processorCheck filters t && declineCodeCheck filters t && declineTypeCheck filters t

/-- `filterTransactions` of `src/lib/analytics.ts`. -/
def filterTransactions (transactions : List Transaction)
    (filters : FilterCriteria) : List Transaction :=
  transactions.filter (passesFilters filters)

/-- `AuthorizationMetrics` of `src/lib/types.ts`. -/
structure AuthorizationMetrics where
  total : ℕ
  approved : ℕ
  declined : ℕ
  authorizationRate : ℚ
  totalRevenue : ℚ
  lostRevenue : ℚ
deriving DecidableEq, Repr

/-- `reduce((sum, t) => sum + t.amount, 0)` of the source. -/
def sumAmounts (l : List Transaction) : ℚ :=
  l.foldl (fun sum t => sum + t.amount) 0

/-- `getAuthorizationRate` of `src/lib/analytics.ts`. -/
def getAuthorizationRate (transactions : List Transaction) : AuthorizationMetrics :=
  let total := transactions.length
  let approved := (transactions.filter (fun t => decide (t.status = .approved))).length
  let declined := total - approved
  let totalRevenue := sumAmounts (transactions.filter (fun t => decide (t.status = .approved)))
  let lostRevenue := sumAmounts (transactions.filter (fun t => decide (t.status = .declined)))
  { total := total
    approved := approved
    declined := declined
    authorizationRate := if 0 < total then ((approved : ℚ) / (total : ℚ)) * 100 else 0
    totalRevenue := totalRevenue
    lostRevenue := lostRevenue }

/-!
Grouping dictionaries. A JS `reduce` building `Record<string, Transaction[]>`
(skipping null keys) followed by `Object.entries` yields the keys in first
occurrence order, each with the matching elements in input order. `firstKeys`
computes that key order; `groupsBy` pairs each key with its group.
-/

variable {α : Type} {κ : Type}

/-- Keys of the grouping dictionary in first occurrence order, skipping
elements whose key is null. -/
def firstKeys [DecidableEq κ] (f : α → Option κ) : List α → List κ
  | [] => []
  | a :: l =>
    match f a with
    | none => firstKeys f l
    | some k => k :: (firstKeys f l).filter (fun k2 => decide (k2 ≠ k))

/-- The grouping dictionary as an association list in `Object.entries`
order. -/
def groupsBy [DecidableEq κ] (f : α → Option κ) (l : List α) : List (κ × List α) :=
  (firstKeys f l).map (fun k => (k, l.filter (fun a => decide (f a = some k))))

/-- `DeclineCodeAnalysis` of `src/lib/types.ts`. `cumulativePercentage` is
optional in the source and assigned on every returned row by the final pass of
`getDeclineImpact`; the intermediate rows built before that pass carry 0. -/
structure DeclineCodeAnalysis where
  code : DeclineCode
  type : DeclineType
  count : ℕ
  percentage : ℚ
  lostRevenue : ℚ
  averageAmount : ℚ
  cumulativePercentage : ℚ
deriving DecidableEq, Repr

/-- One row of the `analysis` array of `getDeclineImpact` (lines 223–236),
for group `txns` of code `code` out of `declinedTotal` declined rows. -/
def mkAnalysis (declinedTotal : ℕ) (code : DeclineCode)
    (txns : List Transaction) : DeclineCodeAnalysis :=
  let count := txns.length
  let lostRevenue := sumAmounts txns
  { code := code
    type := classifyDecline code
    count := count
    percentage := ((count : ℚ) / (declinedTotal : ℚ)) * 100
    lostRevenue := lostRevenue
    averageAmount := lostRevenue / (count : ℚ)
    cumulativePercentage := 0 }

/-- The ordering of the comparator `(a, b) => b.count - a.count`. -/
def countGe (a b : DeclineCodeAnalysis) : Prop := b.count ≤ a.count

instance : DecidableRel countGe :=
  fun a b => inferInstanceAs (Decidable (b.count ≤ a.count))

instance : IsTotal DeclineCodeAnalysis countGe :=
  ⟨fun a b => le_total b.count a.count⟩

instance : IsTrans DeclineCodeAnalysis countGe :=
  ⟨fun _ _ _ hab hbc => le_trans hbc hab⟩

/-- The final pass of `getDeclineImpact` (lines 239–246): walk the sorted
rows accumulating `percentage` into `cumulativePercentage`. -/
def addCumulative (acc : ℚ) : List DeclineCodeAnalysis → List DeclineCodeAnalysis
  | [] => []
  | a :: rest =>
    { a with cumulativePercentage := acc + a.percentage } ::
      addCumulative (acc + a.percentage) rest

/-- `getDeclineImpact` of `src/lib/analytics.ts`. -/
def getDeclineImpact (transactions : List Transaction) : List DeclineCodeAnalysis :=
  let declined := transactions.filter
    (fun t => decide (t.status = .declined) && decide (t.decline_code ≠ none))
  if declined.length = 0 then []
  else
    let grouped := groupsBy (fun t => t.decline_code) declined
    let analysis := List.insertionSort countGe
      (grouped.map (fun g => mkAnalysis declined.length g.1 g.2))
    addCumulative 0 analysis

/-- `DimensionAggregate` of `src/lib/types.ts`. -/
structure DimensionAggregate where
  dimension : String
  approved : ℕ
  declined : ℕ
  total : ℕ
  authorizationRate : ℚ
  totalAmount : ℚ
deriving DecidableEq, Repr

/-- `GroupByDimension` of `src/lib/types.ts`. -/
inductive GroupByDimension
  | country
  | payment_method
  | processor
  | decline_code
deriving DecidableEq, Repr

/-- Runtime string value of a `Country`. -/
def countryToString : Country → String
  | .Mexico => "Mexico"
  | .Colombia => "Colombia"
  | .Brazil => "Brazil"

/-- Runtime string value of a `PaymentMethod`. -/
def paymentMethodToString : PaymentMethod → String
  | .credit_card => "credit_card"
  | .debit_card => "debit_card"
  | .pse => "pse"
  | .pix => "pix"
  | .boleto => "boleto"

/-- Runtime string value of a `Processor`. -/
def processorToString : Processor → String
  | .PagosRapid => "PagosRapid"
  | .AcquireLocal => "AcquireLocal"
  | .BrasilPay => "BrasilPay"

/-- Runtime string value of a `DeclineCode`. -/
def declineCodeToString : DeclineCode → String
  | .insufficient_funds => "insufficient_funds"
  | .card_expired => "card_expired"
  | .suspected_fraud => "suspected_fraud"
  | .do_not_honor => "do_not_honor"
  | .issuer_unavailable => "issuer_unavailable"
  | .invalid_card_number => "invalid_card_number"
  | .transaction_not_permitted => "transaction_not_permitted"
  | .processing_error => "processing_error"
  | .timeout => "timeout"
  | .lost_stolen_card => "lost_stolen_card"

/-- `transaction[keyMap[dimension]] as string` with the falsy guard
`if (!value)` of `groupByDimension` (lines 282–284): the enumeration string
values are all non-empty, so exactly a null `decline_code` is skipped. -/
def getDimValue (dimension : GroupByDimension) (t : Transaction) : Option String :=
  match dimension with
  | .country => some (countryToString t.country)
  | .payment_method => some (paymentMethodToString t.payment_method)
  | .processor => some (processorToString t.processor)
  | .decline_code => t.decline_code.map declineCodeToString

/-- One aggregate row of `groupByDimension` (lines 294–309). -/
def mkDimensionAggregate (dimensionValue : String)
    (txns : List Transaction) : DimensionAggregate :=
  let approved := (txns.filter (fun t => decide (t.status = .approved))).length
  let declined := (txns.filter (fun t => decide (t.status = .declined))).length
  let total := txns.length
  { dimension := dimensionValue
    approved := approved
    declined := declined
    total := total
    authorizationRate := if 0 < total then ((approved : ℚ) / (total : ℚ)) * 100 else 0
    totalAmount := sumAmounts (txns.filter (fun t => decide (t.status = .approved))) }

/-- The ordering of the comparator `(a, b) => b.total - a.total`. -/
def totalGe (a b : DimensionAggregate) : Prop := b.total ≤ a.total

instance : DecidableRel totalGe :=
  fun a b => inferInstanceAs (Decidable (b.total ≤ a.total))

instance : IsTotal DimensionAggregate totalGe :=
  ⟨fun a b => le_total b.total a.total⟩

instance : IsTrans DimensionAggregate totalGe :=
  ⟨fun _ _ _ hab hbc => le_trans hbc hab⟩

/-- `groupByDimension` of `src/lib/analytics.ts`. -/
def groupByDimension (transactions : List Transaction)
    (dimension : GroupByDimension) : List DimensionAggregate :=
  List.insertionSort totalGe
    ((groupsBy (getDimValue dimension) transactions).map
      (fun g => mkDimensionAggregate g.1 g.2))

/-- `TimeSeriesDataPoint` of `src/lib/types.ts`. -/
structure TimeSeriesDataPoint where
  date : String
  timestamp : Int
  approved : ℕ
  declined : ℕ
  total : ℕ
  authorizationRate : ℚ
deriving DecidableEq, Repr

/-- The ordering of the comparator `(a, b) => a.timestamp - b.timestamp`. -/
def tsLe (a b : TimeSeriesDataPoint) : Prop := a.timestamp ≤ b.timestamp

instance : DecidableRel tsLe :=
  fun a b => inferInstanceAs (Decidable (a.timestamp ≤ b.timestamp))

instance : IsTotal TimeSeriesDataPoint tsLe :=
  ⟨fun a b => le_total a.timestamp b.timestamp⟩

instance : IsTrans TimeSeriesDataPoint tsLe :=
  ⟨fun _ _ _ hab hbc => le_trans hab hbc⟩

/-- `groupByTime` of `src/lib/analytics.ts`. The bucketing helper
`formatDate` is built from the external `date-fns` functions `format`,
`startOfWeek` and `startOfMonth` according to the granularity, and the bucket
timestamp comes from the external `new Date(dateStr).getTime()`; neither
library is part of this repository, so the composite bucket key function
`fmt` and the reparse function `parse` are abstracted as parameters. -/
def groupByTime (fmt : Int → String) (parse : String → Int)
    (transactions : List Transaction) : List TimeSeriesDataPoint :=
  List.insertionSort tsLe
    ((groupsBy (fun t => some (fmt t.timestamp)) transactions).map
      (fun g =>
        let approved := (g.2.filter (fun t => decide (t.status = .approved))).length
        let declined := (g.2.filter (fun t => decide (t.status = .declined))).length
        let total := g.2.length
        { date := g.1
          timestamp := parse g.1
          approved := approved
          declined := declined
          total := total
          authorizationRate :=
            if 0 < total then ((approved : ℚ) / (total : ℚ)) * 100 else 0 }))

/-!
The filter store of `src/scripts/verify-transactions.ts` (`useFilterStore`),
modelled as a state record and a step function over the store operations.
-/

/-- The stored part of `FilterState` (`src/scripts/verify-transactions.ts`). -/
structure FilterState where
  allTransactions : List Transaction
  filters : TransactionFilters
  filteredTransactions : List Transaction
deriving DecidableEq, Repr

/-- `initialFilters` of `src/scripts/verify-transactions.ts`. -/
def initialFilters : TransactionFilters :=
  { dateRange := { start := none, stop := none }
    countries := []
    paymentMethods := []
    processors := []
    declineCodes := []
    declineTypes := [] }

/-- The twelve mutation actions of the store. -/
inductive FilterOp
  | setDateRange (range : DateRange)
  | setCountries (countries : List Country)
  | setPaymentMethods (methods : List PaymentMethod)
  | setProcessors (processors : List Processor)
  | setDeclineCodes (codes : List DeclineCode)
  | setDeclineTypes (types : List DeclineType)
  | toggleCountry (country : Country)
  | togglePaymentMethod (method : PaymentMethod)
  | toggleProcessor (processor : Processor)
  | toggleDeclineCode (code : DeclineCode)
  | toggleDeclineType (type : DeclineType)
  | resetFilters
deriving DecidableEq, Repr

/-- The shared body of every setter: install the new filters and
synchronously recompute `filteredTransactions` from them. -/
def setFilters (s : FilterState) (newFilters : TransactionFilters) : FilterState :=
  { s with
    filters := newFilters
    filteredTransactions := filterTransactions s.allTransactions (toCriteria newFilters) }

/-- The toggle helper pattern: `current.includes(v) ?
current.filter(x => x !== v) : [...current, v]`. -/
def toggleList [DecidableEq β] (current : List β) (v : β) : List β :=
  if v ∈ current then current.filter (fun x => decide (x ≠ v))
  else current ++ [v]

/-- One store action, exactly as `useFilterStore` implements it: each setter
replaces its field and recomputes, each toggle computes the updated list and
delegates to its setter, and `resetFilters` installs `initialFilters` and
assigns `allTransactions` directly without re-running the filter. -/
def applyOp (s : FilterState) (op : FilterOp) : FilterState :=
  match op with
  | .setDateRange range => setFilters s { s.filters with dateRange := range }
  | .setCountries countries => setFilters s { s.filters with countries := countries }
  | .setPaymentMethods methods => setFilters s { s.filters with paymentMethods := methods }
  | .setProcessors processors => setFilters s { s.filters with processors := processors }
  | .setDeclineCodes codes => setFilters s { s.filters with declineCodes := codes }
  | .setDeclineTypes types => setFilters s { s.filters with declineTypes := types }
  | .toggleCountry c =>
    setFilters s { s.filters with countries := toggleList s.filters.countries c }
  | .togglePaymentMethod m =>
    setFilters s { s.filters with paymentMethods := toggleList s.filters.paymentMethods m }
  | .toggleProcessor p =>
    setFilters s { s.filters with processors := toggleList s.filters.processors p }
  | .toggleDeclineCode c =>
    setFilters s { s.filters with declineCodes := toggleList s.filters.declineCodes c }
  | .toggleDeclineType ty =>
    setFilters s { s.filters with declineTypes := toggleList s.filters.declineTypes ty }
  | .resetFilters =>
    { s with
      filters := initialFilters
      filteredTransactions := s.allTransactions }

/-- A finite sequence of store actions. -/
def applyOps (s : FilterState) (ops : List FilterOp) : FilterState :=
  ops.foldl applyOp s

/-- The store's initial state for a loaded snapshot: no constraints, the
filtered view is the snapshot itself. -/
def initState (transactions : List Transaction) : FilterState :=
  { allTransactions := transactions
    filters := initialFilters
    filteredTransactions := transactions }

/-- The container invariant: the stored filtered view equals a fresh filter
run with the stored criteria. -/
def StoreInv (s : FilterState) : Prop :=
  s.filteredTransactions = filterTransactions s.allTransactions (toCriteria s.filters)

/-- A state the store can actually be in: some action sequence from some
initial snapshot produces it. -/
def Reachable (s : FilterState) : Prop :=
  ∃ transactions ops, s = applyOps (initState transactions) ops

/-!
Spec-side statements of the six per-dimension checks of §4.2, written from
the specification's words (a check with an absent or empty criterion is a
pass), to be compared with the source-derived predicate.
-/

/-- §4.2 check 1: timestamp ≥ `start` (if set) and ≤ `end` (if set). -/
def specDateCheck (F : FilterCriteria) (t : Transaction) : Prop :=
  ∀ r, F.dateRange = some r →
    (∀ s, r.start = some s → s ≤ t.timestamp) ∧
    (∀ e, r.stop = some e → t.timestamp ≤ e)

/-- §4.2 check 2: country membership when the criterion is non-empty. -/
def specCountryCheck (F : FilterCriteria) (t : Transaction) : Prop :=
  ∀ cs, F.countries = some cs → cs ≠ [] → t.country ∈ cs

/-- §4.2 check 3: payment-method membership when non-empty. -/
def specPaymentMethodCheck (F : FilterCriteria) (t : Transaction) : Prop :=
  ∀ ms, F.paymentMethods = some ms → ms ≠ [] → t.payment_method ∈ ms

/-- §4.2 check 4: processor membership when non-empty. -/
def specProcessorCheck (F : FilterCriteria) (t : Transaction) : Prop :=
  ∀ ps, F.processors = some ps → ps ≠ [] → t.processor ∈ ps

/-- §4.2 check 5: with a non-empty decline-code criterion the transaction is
declined and its decline code is in the set. -/
def specDeclineCodeCheck (F : FilterCriteria) (t : Transaction) : Prop :=
  ∀ codes, F.declineCodes = some codes → codes ≠ [] →
    t.status = .declined ∧ ∃ c, t.decline_code = some c ∧ c ∈ codes

/-- §4.2 check 6: with a non-empty decline-type criterion the transaction is
declined and the classification of its decline code is in the set. -/
def specDeclineTypeCheck (F : FilterCriteria) (t : Transaction) : Prop :=
  ∀ types, F.declineTypes = some types → types ≠ [] →
    t.status = .declined ∧ ∃ c, t.decline_code = some c ∧ classifyDecline c ∈ types

/-!
Concrete sample records, used by the closed witness theorems.
-/

/-- A concrete approved transaction. -/
def txApproved : Transaction :=
  { id := "tx-1"
    amount := 100
    currency := .MXN
    country := .Mexico
    payment_method := .credit_card
    processor := .PagosRapid
    status := .approved
    decline_code := none
    timestamp := 0 }

/-- A concrete soft-declined transaction. -/
def txSoftDeclined : Transaction :=
  { id := "tx-2"
    amount := 50
    currency := .BRL
    country := .Brazil
    payment_method := .pix
    processor := .BrasilPay
    status := .declined
    decline_code := some .insufficient_funds
    timestamp := 10 }

/-- A concrete hard-declined transaction. -/
def txHardDeclined : Transaction :=
  { id := "tx-3"
    amount := 75
    currency := .COP
    country := .Colombia
    payment_method := .pse
    processor := .AcquireLocal
    status := .declined
    decline_code := some .suspected_fraud
    timestamp := 20 }

/-- Filter criteria selecting only the `insufficient_funds` decline code. -/
def criteriaSoftCode : FilterCriteria :=
  { dateRange := none
    countries := none
    paymentMethods := none
    processors := none
    declineCodes := some [.insufficient_funds]
    declineTypes := some [.soft] }

/-!
Helper lemmas about the filter predicate.
-/

theorem dateCheck_iff (F : FilterCriteria) (t : Transaction) :
    dateCheck F t = true ↔ specDateCheck F t := by
  unfold dateCheck specDateCheck
  cases hdr : F.dateRange with
  | none => simp
  | some r =>
    obtain ⟨st, en⟩ := r
    cases st <;> cases en <;> simp [Int.not_lt]

theorem countryCheck_iff (F : FilterCriteria) (t : Transaction) :
    countryCheck F t = true ↔ specCountryCheck F t := by
  unfold countryCheck specCountryCheck
  cases hc : F.countries with
  | none => simp
  | some cs => cases cs <;> simp

theorem paymentMethodCheck_iff (F : FilterCriteria) (t : Transaction) :
    paymentMethodCheck F t = true ↔ specPaymentMethodCheck F t := by
  unfold paymentMethodCheck specPaymentMethodCheck
  cases hm : F.paymentMethods with
  | none => simp
  | some ms => cases ms <;> simp

theorem processorCheck_iff (F : FilterCriteria) (t : Transaction) :
    processorCheck F t = true ↔ specProcessorCheck F t := by
  unfold processorCheck specProcessorCheck
  cases hp : F.processors with
  | none => simp
  | some ps => cases ps <;> simp

theorem declineCodeCheck_iff (F : FilterCriteria) (t : Transaction) :
    declineCodeCheck F t = true ↔ specDeclineCodeCheck F t := by
  unfold declineCodeCheck specDeclineCodeCheck
  cases hc : F.declineCodes with
  | none => simp
  | some codes =>
    cases codes with
    | nil => simp
    | cons c0 rest =>
      cases hs : t.status <;> cases hd : t.decline_code <;> simp [hs, hd]

theorem declineTypeCheck_iff (F : FilterCriteria) (t : Transaction) :
    declineTypeCheck F t = true ↔ specDeclineTypeCheck F t := by
  unfold declineTypeCheck specDeclineTypeCheck
  cases hc : F.declineTypes with
  | none => simp
  | some types =>
    cases types with
    | nil => simp
    | cons ty0 rest =>
      cases hs : t.status <;> cases hd : t.decline_code <;> simp [hs, hd]

theorem mem_filterTransactions_iff (T : List Transaction) (F : FilterCriteria)
    (t : Transaction) :
    t ∈ filterTransactions T F ↔
      t ∈ T ∧ specDateCheck F t ∧ specCountryCheck F t ∧
      specPaymentMethodCheck F t ∧ specProcessorCheck F t ∧
      specDeclineCodeCheck F t ∧ specDeclineTypeCheck F t := by
  rw [filterTransactions, List.mem_filter, passesFilters]
  rw [show (dateCheck F t && countryCheck F t && paymentMethodCheck F t &&
      processorCheck F t && declineCodeCheck F t && declineTypeCheck F t) = true ↔
      (dateCheck F t = true ∧ countryCheck F t = true ∧
       paymentMethodCheck F t = true ∧ processorCheck F t = true ∧
       declineCodeCheck F t = true ∧ declineTypeCheck F t = true) by
    simp [Bool.and_eq_true, and_assoc]]
  rw [dateCheck_iff, countryCheck_iff, paymentMethodCheck_iff, processorCheck_iff,
    declineCodeCheck_iff, declineTypeCheck_iff]

theorem passesFilters_initial (t : Transaction) :
    passesFilters (toCriteria initialFilters) t = true := rfl

theorem filterTransactions_initial (T : List Transaction) :
    filterTransactions T (toCriteria initialFilters) = T := by
  rw [filterTransactions]
  exact List.filter_eq_self.mpr (fun t _ => passesFilters_initial t)

/-!
Helper lemmas about amount sums.
-/

theorem foldl_add_amount (l : List Transaction) (a : ℚ) :
    l.foldl (fun sum t => sum + t.amount) a = a + (l.map (fun t => t.amount)).sum := by
  induction l generalizing a with
  | nil => simp
  | cons t rest ih =>
    rw [List.foldl_cons, ih, List.map_cons, List.sum_cons]
    ring

theorem sumAmounts_eq_sum_map (l : List Transaction) :
    sumAmounts l = (l.map (fun t => t.amount)).sum := by
  rw [sumAmounts, foldl_add_amount, zero_add]

theorem sumAmounts_filter_partition (p : Transaction → Bool) (l : List Transaction) :
    sumAmounts (l.filter p) + sumAmounts (l.filter (fun t => !(p t))) = sumAmounts l := by
  rw [sumAmounts_eq_sum_map, sumAmounts_eq_sum_map, sumAmounts_eq_sum_map]
  induction l with
  | nil => simp
  | cons t rest ih =>
    cases hp : p t <;>
      simp only [List.filter_cons, hp, Bool.not_false, Bool.not_true, if_pos, if_neg,
        Bool.false_eq_true, not_false_eq_true, List.map_cons, List.sum_cons, ite_true,
        ite_false] <;>
      linarith [ih]

theorem filter_declined_eq_filter_not_approved (l : List Transaction) :
    l.filter (fun t => decide (t.status = .declined))
      = l.filter (fun t => !(decide (t.status = .approved))) := by
  apply List.filter_congr
  intro t _
  cases h : t.status <;> simp [h]

/-!
Helper lemmas about the grouping dictionary.
-/

theorem firstKeys_nodup [DecidableEq κ] (f : α → Option κ) (l : List α) :
    (firstKeys f l).Nodup := by
  induction l with
  | nil => exact List.nodup_nil
  | cons a l ih =>
    cases hfa : f a with
    | none => simpa [firstKeys, hfa] using ih
    | some k =>
      simp only [firstKeys, hfa, List.nodup_cons]
      refine ⟨fun hmem => ?_, ih.filter _⟩
      have := (List.mem_filter.mp hmem).2
      simp at this

theorem mem_firstKeys [DecidableEq κ] (f : α → Option κ) (l : List α) (k : κ) :
    k ∈ firstKeys f l ↔ ∃ a ∈ l, f a = some k := by
  induction l with
  | nil => simp [firstKeys]
  | cons a l ih =>
    cases hfa : f a with
    | none =>
      simp only [firstKeys, hfa, List.mem_cons]
      rw [ih]
      constructor
      · rintro ⟨b, hb, hfb⟩
        exact ⟨b, Or.inr hb, hfb⟩
      · rintro ⟨b, hb | hb, hfb⟩
        · subst hb
          rw [hfa] at hfb
          cases hfb
        · exact ⟨b, hb, hfb⟩
    | some k0 =>
      simp only [firstKeys, hfa, List.mem_cons, List.mem_filter]
      constructor
      · rintro (rfl | ⟨hk, _⟩)
        · exact ⟨a, Or.inl rfl, hfa⟩
        · obtain ⟨b, hb, hfb⟩ := ih.mp hk
          exact ⟨b, Or.inr hb, hfb⟩
      · rintro ⟨b, hb | hb, hfb⟩
        · subst hb
          rw [hfa] at hfb
          injection hfb with hfb
          exact Or.inl hfb.symm
        · by_cases hk : k = k0
          · exact Or.inl hk
          · exact Or.inr ⟨ih.mpr ⟨b, hb, hfb⟩, by simpa using hk⟩

theorem countP_split (p q : α → Bool) (l : List α) :
    l.countP (fun a => p a && q a) + l.countP (fun a => p a && !(q a)) = l.countP p := by
  induction l with
  | nil => simp
  | cons a l ih =>
    cases hp : p a <;> cases hq : q a <;>
      simp [List.countP_cons, hp, hq] <;> omega

theorem sum_filterLengths [DecidableEq κ] (f : α → Option κ) (keys : List κ) :
    ∀ l : List α, keys.Nodup →
    (∀ a ∈ l, ∀ k, f a = some k → k ∈ keys) →
    (keys.map (fun k => (l.filter (fun a => decide (f a = some k))).length)).sum
      = (l.filter (fun a => (f a).isSome)).length := by
  induction keys with
  | nil =>
    intro l _ hcov
    simp only [List.map_nil, List.sum_nil]
    symm
    rw [List.length_eq_zero, List.filter_eq_nil_iff]
    intro a ha
    simp only [Bool.not_eq_true]
    cases hfa : f a with
    | none => rfl
    | some k => exact absurd (hcov a ha k hfa) (List.not_mem_nil k)
  | cons k0 keys ih =>
    intro l hnd hcov
    obtain ⟨hk0, hnd'⟩ := List.nodup_cons.mp hnd
    rw [List.map_cons, List.sum_cons]
    have hterm : ∀ k ∈ keys,
        (l.filter (fun a => decide (f a = some k))).length
          = ((l.filter (fun a => !(decide (f a = some k0)))).filter
              (fun a => decide (f a = some k))).length := by
      intro k hk
      rw [List.filter_filter]
      congr 1
      apply List.filter_congr
      intro a _
      cases hfa : decide (f a = some k) with
      | false => simp
      | true =>
        have heq : f a = some k := of_decide_eq_true hfa
        have hne : f a ≠ some k0 := by
          rw [heq]
          intro hh
          injection hh with hh
          exact hk0 (hh ▸ hk)
        simp [hne]
    rw [List.map_congr_left hterm,
      ih (l.filter (fun a => !(decide (f a = some k0)))) hnd' ?_]
    · have h1 : l.filter (fun a => decide (f a = some k0))
          = l.filter (fun a => (f a).isSome && decide (f a = some k0)) := by
        apply List.filter_congr
        intro a _
        cases hfa : decide (f a = some k0) with
        | false => simp
        | true =>
          have heq : f a = some k0 := of_decide_eq_true hfa
          simp [heq]
      have h2 : (l.filter (fun a => !(decide (f a = some k0)))).filter
            (fun a => (f a).isSome)
          = l.filter (fun a => (f a).isSome && !(decide (f a = some k0))) := by
        rw [List.filter_filter]
      rw [h1, h2, ← List.countP_eq_length_filter, ← List.countP_eq_length_filter,
        ← List.countP_eq_length_filter]
      exact countP_split (fun a => (f a).isSome) (fun a => decide (f a = some k0)) l
    · intro a ha k hfk
      have ha' := List.mem_filter.mp ha
      have hk' := hcov a ha'.1 k hfk
      rcases List.mem_cons.mp hk' with rfl | hk'
      · exfalso
        have := ha'.2
        rw [hfk] at this
        simp at this
      · exact hk'

theorem groupsBy_lengths_sum [DecidableEq κ] (f : α → Option κ) (l : List α) :
    ((groupsBy f l).map (fun g => g.2.length)).sum
      = (l.filter (fun a => (f a).isSome)).length := by
  rw [groupsBy, List.map_map]
  exact sum_filterLengths f (firstKeys f l) l (firstKeys_nodup f l)
    (fun a ha k hk => (mem_firstKeys f l k).mpr ⟨a, ha, hk⟩)

/-!
Helper lemmas about the cumulative-percentage pass.
-/

theorem addCumulative_length (acc : ℚ) (l : List DeclineCodeAnalysis) :
    (addCumulative acc l).length = l.length := by
  induction l generalizing acc with
  | nil => rfl
  | cons a rest ih => simp [addCumulative, ih]

theorem mem_addCumulative (acc : ℚ) (l : List DeclineCodeAnalysis) :
    ∀ x ∈ addCumulative acc l,
      ∃ y ∈ l, x.count = y.count ∧ x.percentage = y.percentage := by
  induction l generalizing acc with
  | nil => simp [addCumulative]
  | cons a rest ih =>
    intro x hx
    rcases List.mem_cons.mp hx with rfl | hx
    · exact ⟨a, List.mem_cons_self a rest, rfl, rfl⟩
    · obtain ⟨y, hy, h1, h2⟩ := ih _ x hx
      exact ⟨y, List.mem_cons_of_mem a hy, h1, h2⟩

theorem addCumulative_pairwise_count (acc : ℚ) (l : List DeclineCodeAnalysis)
    (h : l.Pairwise countGe) : (addCumulative acc l).Pairwise countGe := by
  induction l generalizing acc with
  | nil => simp [addCumulative]
  | cons a rest ih =>
    obtain ⟨ha, hrest⟩ := List.pairwise_cons.mp h
    refine List.Pairwise.cons ?_ (ih _ hrest)
    intro x hx
    obtain ⟨y, hy, hcount, _⟩ := mem_addCumulative _ _ x hx
    show x.count ≤ a.count
    rw [hcount]
    exact ha y hy

theorem addCumulative_cum_lb (l : List DeclineCodeAnalysis)
    (hp : ∀ a ∈ l, 0 ≤ a.percentage) :
    ∀ acc, ∀ x ∈ addCumulative acc l, acc ≤ x.cumulativePercentage := by
  induction l with
  | nil => simp [addCumulative]
  | cons a rest ih =>
    intro acc x hx
    have hpa : 0 ≤ a.percentage := hp a (List.mem_cons_self a rest)
    rcases List.mem_cons.mp hx with rfl | hx
    · show acc ≤ acc + a.percentage
      linarith
    · have := ih (fun b hb => hp b (List.mem_cons_of_mem a hb)) (acc + a.percentage) x hx
      linarith

theorem addCumulative_pairwise_cum (l : List DeclineCodeAnalysis)
    (hp : ∀ a ∈ l, 0 ≤ a.percentage) (acc : ℚ) :
    (addCumulative acc l).Pairwise
      (fun x y => x.cumulativePercentage ≤ y.cumulativePercentage) := by
  induction l generalizing acc with
  | nil => simp [addCumulative]
  | cons a rest ih =>
    have hrest : ∀ b ∈ rest, 0 ≤ b.percentage :=
      fun b hb => hp b (List.mem_cons_of_mem a hb)
    refine List.Pairwise.cons ?_ (ih hrest _)
    intro x hx
    exact addCumulative_cum_lb rest hrest (acc + a.percentage) x hx

theorem addCumulative_getLast (a : DeclineCodeAnalysis) (l : List DeclineCodeAnalysis) :
    ∀ acc, ∃ x, (addCumulative acc (a :: l)).getLast? = some x ∧
      x.cumulativePercentage = acc + ((a :: l).map (fun b => b.percentage)).sum := by
  induction l generalizing a with
  | nil =>
    intro acc
    refine ⟨{ a with cumulativePercentage := acc + a.percentage }, rfl, ?_⟩
    simp
  | cons b rest ih =>
    intro acc
    obtain ⟨x, hlast, hcum⟩ := ih b (acc + a.percentage)
    refine ⟨x, ?_, ?_⟩
    · show (addCumulative acc (a :: b :: rest)).getLast? = some x
      rw [show addCumulative acc (a :: b :: rest)
            = { a with cumulativePercentage := acc + a.percentage } ::
              addCumulative (acc + a.percentage) (b :: rest) from rfl]
      rw [show addCumulative (acc + a.percentage) (b :: rest)
            = { b with cumulativePercentage := acc + a.percentage + b.percentage } ::
              addCumulative (acc + a.percentage + b.percentage) rest from rfl] at hlast ⊢
      rw [List.getLast?_cons_cons]
      exact hlast
    · rw [hcum]
      simp
      ring

/-!
Structural lemmas for `getDeclineImpact`.
-/

theorem getDeclineImpact_def (T : List Transaction) :
    getDeclineImpact T =
      if (T.filter (fun t => decide (t.status = .declined) &&
            decide (t.decline_code ≠ none))).length = 0
      then []
      else addCumulative 0 (List.insertionSort countGe
        ((groupsBy (fun t => t.decline_code)
            (T.filter (fun t => decide (t.status = .declined) &&
              decide (t.decline_code ≠ none)))).map
          (fun g => mkAnalysis
            (T.filter (fun t => decide (t.status = .declined) &&
              decide (t.decline_code ≠ none))).length g.1 g.2))) := rfl

theorem getDeclineImpact_of_not_exists (T : List Transaction)
    (h : ¬ ∃ t ∈ T, t.status = .declined ∧ t.decline_code ≠ none) :
    getDeclineImpact T = [] := by
  have hnil : T.filter (fun t => decide (t.status = .declined) &&
      decide (t.decline_code ≠ none)) = [] := by
    rw [List.filter_eq_nil_iff]
    intro t ht hb
    simp only [Bool.and_eq_true, decide_eq_true_eq] at hb
    exact h ⟨t, ht, hb.1, hb.2⟩
  rw [getDeclineImpact_def, hnil]
  rfl

theorem getDeclineImpact_of_exists (T : List Transaction)
    (h : ∃ t ∈ T, t.status = .declined ∧ t.decline_code ≠ none) :
    getDeclineImpact T ≠ [] ∧
    (getDeclineImpact T).Pairwise (fun a b => b.count ≤ a.count) ∧
    (getDeclineImpact T).Pairwise
      (fun a b => a.cumulativePercentage ≤ b.cumulativePercentage) ∧
    ∃ x, (getDeclineImpact T).getLast? = some x ∧ x.cumulativePercentage = 100 := by
  obtain ⟨t0, ht0, hst, hcode⟩ := h
  set declined := T.filter (fun t => decide (t.status = .declined) &&
    decide (t.decline_code ≠ none)) with hdecl
  have ht0d : t0 ∈ declined := by
    rw [hdecl, List.mem_filter]
    exact ⟨ht0, by simp [hst, hcode]⟩
  have hlen : declined.length ≠ 0 := by
    intro h0
    rw [List.length_eq_zero] at h0
    rw [h0] at ht0d
    exact List.not_mem_nil t0 ht0d
  set grouped := groupsBy (fun t => t.decline_code) declined with hgrp
  set analysis := grouped.map (fun g => mkAnalysis declined.length g.1 g.2) with hana
  set sorted := List.insertionSort countGe analysis with hsort
  have himpact : getDeclineImpact T = addCumulative 0 sorted := by
    rw [getDeclineImpact_def, if_neg hlen]
  have hsorted_perm : List.Perm sorted analysis :=
    List.perm_insertionSort countGe analysis
  have hsorted_ne : sorted ≠ [] := by
    intro h0
    have h1 : analysis = [] := by
      have := hsorted_perm.length_eq
      rw [h0] at this
      exact (List.length_eq_zero).mp this.symm
    obtain ⟨c, hc⟩ : ∃ c, t0.decline_code = some c := by
      cases hdc : t0.decline_code with
      | none => exact absurd hdc hcode
      | some c => exact ⟨c, rfl⟩
    have hck : c ∈ firstKeys (fun t => t.decline_code) declined :=
      (mem_firstKeys _ declined c).mpr ⟨t0, ht0d, hc⟩
    have : grouped ≠ [] := by
      rw [hgrp, groupsBy]
      intro hg
      rw [List.map_eq_nil_iff] at hg
      rw [hg] at hck
      exact List.not_mem_nil c hck
    rw [hana, List.map_eq_nil_iff] at h1
    exact this h1
  have hpct : ∀ x ∈ sorted, 0 ≤ x.percentage := by
    intro x hx
    have hx' : x ∈ analysis := hsorted_perm.mem_iff.mp hx
    rw [hana] at hx'
    obtain ⟨g, _, rfl⟩ := List.mem_map.mp hx'
    show (0 : ℚ) ≤ ((g.2.length : ℚ) / (declined.length : ℚ)) * 100
    positivity
  refine ⟨?_, ?_, ?_, ?_⟩
  · rw [himpact]
    intro h0
    have := addCumulative_length 0 sorted
    rw [h0] at this
    exact hsorted_ne ((List.length_eq_zero).mp this.symm)
  · rw [himpact]
    exact addCumulative_pairwise_count 0 sorted
      (List.sorted_insertionSort countGe analysis)
  · rw [himpact]
    exact addCumulative_pairwise_cum sorted hpct 0
  · obtain ⟨s0, srest, hcons⟩ : ∃ s0 srest, sorted = s0 :: srest := by
      cases hs : sorted with
      | nil => exact absurd hs hsorted_ne
      | cons a l => exact ⟨a, l, rfl⟩
    obtain ⟨x, hlast, hcum⟩ := addCumulative_getLast s0 srest 0
    refine ⟨x, by rw [himpact, hcons]; exact hlast, ?_⟩
    rw [hcum, zero_add, ← hcons]
    have hperm : (sorted.map (fun b => b.percentage)).sum
        = (analysis.map (fun b => b.percentage)).sum :=
      (hsorted_perm.map (fun b => b.percentage)).sum_eq
    rw [hperm, hana, List.map_map]
    have hcomp : ((fun b => b.percentage) ∘
        (fun g : DeclineCode × List Transaction => mkAnalysis declined.length g.1 g.2))
        = fun g : DeclineCode × List Transaction =>
            ((g.2.length : ℚ) / (declined.length : ℚ)) * 100 := rfl
    rw [hcomp]
    have hmc : grouped.map (fun g : DeclineCode × List Transaction =>
          ((g.2.length : ℚ) / (declined.length : ℚ)) * 100)
        = grouped.map (fun g : DeclineCode × List Transaction =>
          ((g.2.length : ℚ)) * (100 / (declined.length : ℚ))) := by
      apply List.map_congr_left
      intro g _
      ring
    rw [hmc, List.sum_map_mul_right]
    have hcast : (grouped.map (fun g : DeclineCode × List Transaction =>
          ((g.2.length : ℕ) : ℚ))).sum
        = (((grouped.map (fun g => g.2.length)).sum : ℕ) : ℚ) := by
      rw [Nat.cast_list_sum, List.map_map]
      rfl
    rw [hcast]
    have hsum : (grouped.map (fun g => g.2.length)).sum = declined.length := by
      rw [hgrp, groupsBy_lengths_sum]
      have hself : declined.filter (fun t => (t.decline_code).isSome) = declined := by
        rw [List.filter_eq_self]
        intro t ht
        rw [hdecl, List.mem_filter] at ht
        have h2 := ht.2
        simp only [Bool.and_eq_true, decide_eq_true_eq] at h2
        simpa [Option.isSome_iff_ne_none] using h2.2
      rw [hself]
    rw [hsum]
    have hn : ((declined.length : ℕ) : ℚ) ≠ 0 := Nat.cast_ne_zero.mpr hlen
    field_simp

/-!
Helper lemmas for `groupByDimension`, `groupByTime` and the rate guards.
-/

theorem groupByDimension_perm (T : List Transaction) (D : GroupByDimension) :
    List.Perm (groupByDimension T D)
      ((groupsBy (getDimValue D) T).map (fun g => mkDimensionAggregate g.1 g.2)) :=
  List.perm_insertionSort totalGe _

theorem groupByDimension_sum_total (T : List Transaction) (D : GroupByDimension) :
    ((groupByDimension T D).map (fun g => g.total)).sum
      = (T.filter (fun t => (getDimValue D t).isSome)).length := by
  rw [((groupByDimension_perm T D).map (fun g => g.total)).sum_eq, List.map_map]
  have hcomp : ((fun g => g.total) ∘
      (fun g : String × List Transaction => mkDimensionAggregate g.1 g.2))
      = fun g : String × List Transaction => g.2.length := rfl
  rw [hcomp]
  exact groupsBy_lengths_sum (getDimValue D) T

theorem groupByDimension_totalAmount (T : List Transaction) (D : GroupByDimension) :
    ∀ g ∈ groupByDimension T D,
      g.totalAmount = sumAmounts
        ((T.filter (fun t => decide (getDimValue D t = some g.dimension))).filter
          (fun t => decide (t.status = .approved))) := by
  intro g hg
  have hg' := (groupByDimension_perm T D).mem_iff.mp hg
  obtain ⟨p, hp, rfl⟩ := List.mem_map.mp hg'
  rw [groupsBy] at hp
  obtain ⟨k, _, rfl⟩ := List.mem_map.mp hp
  rfl

theorem groupByDimension_rate (T : List Transaction) (D : GroupByDimension) :
    ∀ g ∈ groupByDimension T D,
      g.authorizationRate =
        if 0 < g.total then ((g.approved : ℚ) / (g.total : ℚ)) * 100 else 0 := by
  intro g hg
  have hg' := (groupByDimension_perm T D).mem_iff.mp hg
  obtain ⟨p, _, rfl⟩ := List.mem_map.mp hg'
  rfl

theorem groupByTime_rate (fmt : Int → String) (parse : String → Int)
    (T : List Transaction) :
    ∀ p ∈ groupByTime fmt parse T,
      p.authorizationRate =
        if 0 < p.total then ((p.approved : ℚ) / (p.total : ℚ)) * 100 else 0 := by
  intro p hp
  have hp' := (List.perm_insertionSort tsLe _).mem_iff.mp hp
  obtain ⟨g, _, rfl⟩ := List.mem_map.mp hp'
  rfl

theorem getAuthorizationRate_rate (T : List Transaction) :
    (getAuthorizationRate T).authorizationRate =
      if 0 < (getAuthorizationRate T).total
      then ((getAuthorizationRate T).approved : ℚ)
        / ((getAuthorizationRate T).total : ℚ) * 100
      else 0 := rfl

theorem getAuthorizationRate_revenue_partition (T : List Transaction) :
    (getAuthorizationRate T).totalRevenue + (getAuthorizationRate T).lostRevenue
      = (T.map (fun t => t.amount)).sum := by
  show sumAmounts (T.filter (fun t => decide (t.status = .approved)))
      + sumAmounts (T.filter (fun t => decide (t.status = .declined)))
      = (T.map (fun t => t.amount)).sum
  rw [filter_declined_eq_filter_not_approved, sumAmounts_filter_partition,
    sumAmounts_eq_sum_map]

/-!
Helper lemmas for the filter store.
-/

theorem storeInv_initState (T : List Transaction) : StoreInv (initState T) := by
  show T = filterTransactions T (toCriteria initialFilters)
  rw [filterTransactions_initial]

theorem storeInv_applyOp (s : FilterState) (op : FilterOp) :
    StoreInv (applyOp s op) := by
  cases op
  case resetFilters =>
    show s.allTransactions
      = filterTransactions s.allTransactions (toCriteria initialFilters)
    rw [filterTransactions_initial]
  all_goals rfl

theorem storeInv_applyOps (s : FilterState) (ops : List FilterOp)
    (h : StoreInv s) : StoreInv (applyOps s ops) := by
  induction ops generalizing s with
  | nil => exact h
  | cons op ops ih => exact ih (applyOp s op) (storeInv_applyOp s op)

theorem reachable_storeInv (s : FilterState) (h : Reachable s) : StoreInv s := by
  obtain ⟨T, ops, rfl⟩ := h
  exact storeInv_applyOps _ _ (storeInv_initState T)

theorem toggleList_toggleList [DecidableEq β] (current : List β) (v : β)
    (h : v ∉ current ∨ ∃ xs, current = xs ++ [v] ∧ v ∉ xs) :
    toggleList (toggleList current v) v = current := by
  have hself : ∀ (l : List β), v ∉ l → l.filter (fun x => decide (x ≠ v)) = l := by
    intro l hl
    apply List.filter_eq_self.mpr
    intro x hx
    simp only [ne_eq, decide_eq_true_eq, decide_not, Bool.not_eq_true',
      decide_eq_false_iff_not]
    exact fun heq => hl (heq ▸ hx)
  have hsingle : [v].filter (fun x => decide (x ≠ v)) = [] := by simp
  rcases h with h | ⟨xs, rfl, hxs⟩
  · have h1 : toggleList current v = current ++ [v] := by
      rw [toggleList, if_neg h]
    rw [h1, toggleList,
      if_pos (List.mem_append_right current (List.mem_singleton.mpr rfl)),
      List.filter_append, hself current h, hsingle, List.append_nil]
  · have h1 : toggleList (xs ++ [v]) v = xs := by
      rw [toggleList,
        if_pos (List.mem_append_right xs (List.mem_singleton.mpr rfl)),
        List.filter_append, hself xs hxs, hsingle, List.append_nil]
    rw [h1, toggleList, if_neg hxs]

theorem toggleCountry_roundTrip (s : FilterState) (hs : StoreInv s) (c : Country)
    (h : c ∉ s.filters.countries ∨
      ∃ xs, s.filters.countries = xs ++ [c] ∧ c ∉ xs) :
    (applyOp (applyOp s (.toggleCountry c)) (.toggleCountry c)).filters = s.filters ∧
    (applyOp (applyOp s (.toggleCountry c)) (.toggleCountry c)).filteredTransactions
      = s.filteredTransactions := by
  obtain ⟨allT, ⟨dr, cur, pms, prs, dcs, dts⟩, filtered⟩ := s
  have htt := toggleList_toggleList cur c h
  constructor
  · show TransactionFilters.mk dr (toggleList (toggleList cur c) c) pms prs dcs dts
      = TransactionFilters.mk dr cur pms prs dcs dts
    rw [htt]
  · show filterTransactions allT (toCriteria
        (TransactionFilters.mk dr (toggleList (toggleList cur c) c) pms prs dcs dts))
      = filtered
    rw [htt]
    exact hs.symm

/-!
The claims.
-/

/-- C1: from the initial state, after every finite sequence of container
operations (setters, toggles, `resetFilters`), the stored
`filteredTransactions` equals `filterTransactions` of the stored snapshot at
the currently stored filters. -/
theorem claim_c1_store_invariant (T : List Transaction) (ops : List FilterOp) :
    (applyOps (initState T) ops).filteredTransactions
      = filterTransactions (applyOps (initState T) ops).allTransactions
          (toCriteria (applyOps (initState T) ops).filters) :=
  storeInv_applyOps (initState T) ops (storeInv_initState T)

/-- C2: `filterTransactions T F` is a subset of `T`, and a transaction is
kept exactly when it passes the six per-dimension checks of §4.2, an absent
or empty criterion counting as a pass. -/
theorem claim_c2_filter_refines_spec (T : List Transaction) (F : FilterCriteria) :
    filterTransactions T F ⊆ T ∧
    ∀ t, (t ∈ filterTransactions T F ↔
      t ∈ T ∧ specDateCheck F t ∧ specCountryCheck F t ∧
      specPaymentMethodCheck F t ∧ specProcessorCheck F t ∧
      specDeclineCodeCheck F t ∧ specDeclineTypeCheck F t) :=
  ⟨List.filter_subset' T, fun t => mem_filterTransactions_iff T F t⟩

/-- Witness for C2 at a concrete list and criteria. -/
theorem claim_c2_witness : txSoftDeclined ∈ ([txApproved, txSoftDeclined] : List Transaction) :=
  (claim_c2_filter_refines_spec [txApproved, txSoftDeclined] criteriaSoftCode).1
    (by decide)

/-- C3: with a non-empty `declineCodes` (resp. `declineTypes`) criterion,
every transaction kept by `filterTransactions` is declined — never approved —
with a non-null decline code in the set (resp. whose classification is in the
set). -/
theorem claim_c3_decline_filters_exclude_approved
    (T : List Transaction) (F : FilterCriteria) (t : Transaction) :
    (∀ codes, F.declineCodes = some codes → codes ≠ [] →
      t ∈ filterTransactions T F →
      t.status = .declined ∧ t.status ≠ .approved ∧
      ∃ c, t.decline_code = some c ∧ c ∈ codes) ∧
    (∀ types, F.declineTypes = some types → types ≠ [] →
      t ∈ filterTransactions T F →
      t.status = .declined ∧ t.status ≠ .approved ∧
      ∃ c, t.decline_code = some c ∧ classifyDecline c ∈ types) := by
  constructor
  · intro codes hc hne hmem
    have h := (mem_filterTransactions_iff T F t).mp hmem
    obtain ⟨hst, c, hcode, hcmem⟩ := h.2.2.2.2.2.1 codes hc hne
    refine ⟨hst, ?_, c, hcode, hcmem⟩
    rw [hst]
    intro hcontra
    cases hcontra
  · intro types ht hne hmem
    have h := (mem_filterTransactions_iff T F t).mp hmem
    obtain ⟨hst, c, hcode, hcmem⟩ := h.2.2.2.2.2.2 types ht hne
    refine ⟨hst, ?_, c, hcode, hcmem⟩
    rw [hst]
    intro hcontra
    cases hcontra

/-- Witness for C3 at a concrete list and criteria. -/
theorem claim_c3_witness :
    txSoftDeclined.status = .declined ∧ txSoftDeclined.status ≠ .approved ∧
    ∃ c, txSoftDeclined.decline_code = some c ∧
      c ∈ [DeclineCode.insufficient_funds] :=
  (claim_c3_decline_filters_exclude_approved [txApproved, txSoftDeclined]
    criteriaSoftCode txSoftDeclined).1 [.insufficient_funds] rfl (by decide) (by decide)

/-- C4: when the input has a declined transaction with a non-null decline
code, `getDeclineImpact` is non-empty, sorted non-increasing by `count`, its
`cumulativePercentage` is non-decreasing and ends at 100; otherwise it is the
empty list. -/
theorem claim_c4_decline_impact_pareto (T : List Transaction) :
    ((∃ t ∈ T, t.status = .declined ∧ t.decline_code ≠ none) →
      getDeclineImpact T ≠ [] ∧
      (getDeclineImpact T).Pairwise (fun a b => b.count ≤ a.count) ∧
      (getDeclineImpact T).Pairwise
        (fun a b => a.cumulativePercentage ≤ b.cumulativePercentage) ∧
      ∃ x, (getDeclineImpact T).getLast? = some x ∧ x.cumulativePercentage = 100) ∧
    ((¬ ∃ t ∈ T, t.status = .declined ∧ t.decline_code ≠ none) →
      getDeclineImpact T = []) :=
  ⟨getDeclineImpact_of_exists T, getDeclineImpact_of_not_exists T⟩

/-- Witness for C4 at a concrete list with two declined transactions. -/
theorem claim_c4_witness :
    getDeclineImpact [txApproved, txSoftDeclined, txHardDeclined] ≠ [] ∧
    (getDeclineImpact [txApproved, txSoftDeclined, txHardDeclined]).Pairwise
      (fun a b => b.count ≤ a.count) ∧
    (getDeclineImpact [txApproved, txSoftDeclined, txHardDeclined]).Pairwise
      (fun a b => a.cumulativePercentage ≤ b.cumulativePercentage) ∧
    ∃ x, (getDeclineImpact [txApproved, txSoftDeclined, txHardDeclined]).getLast?
      = some x ∧ x.cumulativePercentage = 100 :=
  (claim_c4_decline_impact_pareto [txApproved, txSoftDeclined, txHardDeclined]).1
    ⟨txSoftDeclined, by decide, by decide, by decide⟩

/-- C5: `groupByDimension` is sorted non-increasing by `total`, the totals
sum to the number of records with a non-null value for the dimension, and
each group's `totalAmount` sums `amount` over the approved transactions of
that group only. -/
theorem claim_c5_group_by_dimension (T : List Transaction) (D : GroupByDimension) :
    (groupByDimension T D).Pairwise (fun a b => b.total ≤ a.total) ∧
    ((groupByDimension T D).map (fun g => g.total)).sum
      = (T.filter (fun t => (getDimValue D t).isSome)).length ∧
    ∀ g ∈ groupByDimension T D,
      g.totalAmount = sumAmounts
        ((T.filter (fun t => decide (getDimValue D t = some g.dimension))).filter
          (fun t => decide (t.status = .approved))) :=
  ⟨List.sorted_insertionSort totalGe _, groupByDimension_sum_total T D,
    groupByDimension_totalAmount T D⟩

/-- Witness for C5 at a concrete single-country list. -/
theorem claim_c5_witness :
    (mkDimensionAggregate "Mexico" [txApproved]).totalAmount
      = sumAmounts
        ((([txApproved] : List Transaction).filter
            (fun t => decide (getDimValue .country t = some "Mexico"))).filter
          (fun t => decide (t.status = .approved))) :=
  (claim_c5_group_by_dimension [txApproved] .country).2.2
    (mkDimensionAggregate "Mexico" [txApproved]) (List.Mem.head _)

/-- C6: every `authorizationRate` produced by `getAuthorizationRate`,
`groupByDimension` and `groupByTime` is `approved / total * 100` when
`total > 0` and `0` when `total = 0`; on the empty list
`getAuthorizationRate` returns the all-zero record. -/
theorem claim_c6_rate_zero_guard :
    (∀ T, (getAuthorizationRate T).authorizationRate =
      if 0 < (getAuthorizationRate T).total
      then ((getAuthorizationRate T).approved : ℚ)
        / ((getAuthorizationRate T).total : ℚ) * 100
      else 0) ∧
    getAuthorizationRate [] =
      { total := 0
        approved := 0
        declined := 0
        authorizationRate := 0
        totalRevenue := 0
        lostRevenue := 0 } ∧
    (∀ T D, ∀ g ∈ groupByDimension T D, g.authorizationRate =
      if 0 < g.total then ((g.approved : ℚ) / (g.total : ℚ)) * 100 else 0) ∧
    (∀ fmt parse T, ∀ p ∈ groupByTime fmt parse T, p.authorizationRate =
      if 0 < p.total then ((p.approved : ℚ) / (p.total : ℚ)) * 100 else 0) :=
  ⟨getAuthorizationRate_rate, rfl, groupByDimension_rate, groupByTime_rate⟩

/-- Witness for C6 at a concrete aggregate row. -/
theorem claim_c6_witness :
    (mkDimensionAggregate "Mexico" [txApproved]).authorizationRate
      = if 0 < (mkDimensionAggregate "Mexico" [txApproved]).total
        then (((mkDimensionAggregate "Mexico" [txApproved]).approved : ℚ)
          / ((mkDimensionAggregate "Mexico" [txApproved]).total : ℚ)) * 100
        else 0 :=
  claim_c6_rate_zero_guard.2.2.1 [txApproved] .country
    (mkDimensionAggregate "Mexico" [txApproved]) (List.Mem.head _)

/-- C7: `totalRevenue + lostRevenue` of `getAuthorizationRate` equals the sum
of all `amount` fields of the input (exhaustive revenue partition). -/
theorem claim_c7_revenue_partition (T : List Transaction) :
    (getAuthorizationRate T).totalRevenue + (getAuthorizationRate T).lostRevenue
      = (T.map (fun t => t.amount)).sum :=
  getAuthorizationRate_revenue_partition T

/-- C8: `classifyDecline` is total, returns `soft` exactly on the four soft
codes, and `hard` on every other code. -/
theorem claim_c8_classify_decline (code : DeclineCode) :
    (classifyDecline code = .soft ∨ classifyDecline code = .hard) ∧
    (classifyDecline code = .soft ↔ code ∈ softDeclines) ∧
    (code ∉ softDeclines → classifyDecline code = .hard) := by
  cases code <;> exact ⟨by decide, by decide, by decide⟩

/-- Witness for C8 at a concrete hard code. -/
theorem claim_c8_witness : classifyDecline .card_expired = .hard :=
  (claim_c8_classify_decline .card_expired).2.2 (by decide)

/-- C9 (as stated, refuted): a reachable state in which the toggled country
is already selected but not as the unique last element does not round-trip:
`setCountries [Mexico, Brazil]` then toggling `Mexico` twice stores
`[Brazil, Mexico]`. -/
theorem claim_c9_counterexample :
    (applyOps (initState []) [.setCountries [.Mexico, .Brazil],
      .toggleCountry .Mexico, .toggleCountry .Mexico]).filters
    ≠ (applyOps (initState []) [.setCountries [.Mexico, .Brazil]]).filters := by
  decide

/-- C9 (amended): on every reachable state, toggling a country twice
round-trips both `filters` and `filteredTransactions`, provided the country
is not currently selected, or is selected exactly once in last position. -/
theorem claim_c9_toggle_round_trip (s : FilterState) (c : Country)
    (hreach : Reachable s)
    (h : c ∉ s.filters.countries ∨
      ∃ xs, s.filters.countries = xs ++ [c] ∧ c ∉ xs) :
    (applyOp (applyOp s (.toggleCountry c)) (.toggleCountry c)).filters
      = s.filters ∧
    (applyOp (applyOp s (.toggleCountry c)) (.toggleCountry c)).filteredTransactions
      = s.filteredTransactions :=
  toggleCountry_roundTrip s (reachable_storeInv s hreach) c h

/-- Witness for the amended C9 at the initial state. -/
theorem claim_c9_witness :
    (applyOp (applyOp (initState []) (.toggleCountry .Mexico))
      (.toggleCountry .Mexico)).filters = (initState ([] : List Transaction)).filters ∧
    (applyOp (applyOp (initState []) (.toggleCountry .Mexico))
      (.toggleCountry .Mexico)).filteredTransactions
      = (initState ([] : List Transaction)).filteredTransactions :=
  claim_c9_toggle_round_trip (initState []) .Mexico ⟨[], [], rfl⟩ (Or.inl (by decide))

/-- C10: the no-constraint filter (the store's initial filter value) is the
identity on every transaction list, which is what licenses `resetFilters` to
assign `allTransactions` directly. -/
theorem claim_c10_initial_filter_identity (T : List Transaction) (s : FilterState) :
    filterTransactions T (toCriteria initialFilters) = T ∧
    (applyOp s .resetFilters).filteredTransactions
      = filterTransactions (applyOp s .resetFilters).allTransactions
          (toCriteria (applyOp s .resetFilters).filters) :=
  ⟨filterTransactions_initial T, storeInv_applyOp s .resetFilters⟩

end Analytics
